import Mathlib

/-!
Shallow embedding of the NIfTI triple-axis viewer core (src/src/main.rs).

Modelling conventions:
* `f32`/`f64` scalars are modelled as exact rationals `ℚ`; the float
  square root is modelled by `Rat.sqrt` (exact on the perfect squares the
  claims exercise).  Division by zero yields `0` in `ℚ`.
* The `ndarray` 3-D array is modelled as a shape vector together with a
  total lookup function on index triples.
* Fallible operations (the `unwrap` in `mm_to_voxel`, the `?`-shortcut in
  `get_slices`, the `usize` clamp that panics when the upper bound is
  below the lower one) return `Option`/`Except` values, `none`/`.error`
  marking the panic or error path.
-/

/-- A 3×3 direction matrix: row, then column, as `affine[row][col]` in the
source. -/
abbrev Affine3 : Type := Fin 3 → Fin 3 → ℚ

/-- The fields of `nifti::NiftiHeader` that the viewer reads. -/
structure NiftiHeader where
  sform_code : ℤ
  qform_code : ℤ
  pixdim : Fin 8 → ℚ
  srow_x : Fin 4 → ℚ
  srow_y : Fin 4 → ℚ
  srow_z : Fin 4 → ℚ
  quatern_b : ℚ
  quatern_c : ℚ
  quatern_d : ℚ
  quatern_x : ℚ
  quatern_y : ℚ
  quatern_z : ℚ

/-- An `ndarray::Array3<f32>`: a shape and a total lookup on index
triples (out-of-range lookups are unspecified but total). -/
structure Volume where
  shape : Fin 3 → ℕ
  data : (Fin 3 → ℕ) → ℚ

/-- The radicand `1 - b*b - c*c - d*d` clamped at zero, as in
`(1.0 - b * b - c * c - d * d).max(0.0)` (main.rs line 34). -/
def qformRadicand (b c d : ℚ) : ℚ :=
  max (1 - b * b - c * c - d * d) 0

/-- The quaternion real part `a = radicand.sqrt()` (main.rs line 34),
float sqrt modelled by `Rat.sqrt`. -/
def qformA (b c d : ℚ) : ℚ :=
  Rat.sqrt (qformRadicand b c d)

/-- The 3×3 rotation matrix `r` built from quaternion components
(main.rs lines 35-51), before the per-column spacing scaling. -/
def qformRot (b c d : ℚ) : Affine3 :=
  let a := qformA b c d
  ![![a * a + b * b - c * c - d * d, 2 * (b * c - a * d), 2 * (b * d + a * c)],
    ![2 * (b * c + a * d), a * a + c * c - b * b - d * d, 2 * (c * d - a * b)],
    ![2 * (b * d - a * c), 2 * (c * d + a * b), a * a + d * d - b * b - c * c]]

/-- Rust `get_affine_3x3` (main.rs lines 23-67): sform rows, else scaled
quaternion rotation, else diagonal spacing. -/
def get_affine_3x3 (hdr : NiftiHeader) : Affine3 :=
  if hdr.sform_code > 0 then
    ![![hdr.srow_x 0, hdr.srow_x 1, hdr.srow_x 2],
      ![hdr.srow_y 0, hdr.srow_y 1, hdr.srow_y 2],
      ![hdr.srow_z 0, hdr.srow_z 1, hdr.srow_z 2]]
  else if hdr.qform_code > 0 then
    let r := qformRot hdr.quatern_b hdr.quatern_c hdr.quatern_d
    let qfac : ℚ := if hdr.pixdim 0 < 0 then -1 else 1
    let px := hdr.pixdim 1
    let py := hdr.pixdim 2
    let pz := hdr.pixdim 3 * qfac
    ![![r 0 0 * px, r 0 1 * py, r 0 2 * pz],
      ![r 1 0 * px, r 1 1 * py, r 1 2 * pz],
      ![r 2 0 * px, r 2 1 * py, r 2 2 * pz]]
  else
    ![![hdr.pixdim 1, 0, 0],
      ![0, hdr.pixdim 2, 0],
      ![0, 0, hdr.pixdim 3]]

/-- Rust `get_translation` (main.rs lines 70-78). -/
def get_translation (hdr : NiftiHeader) : Fin 3 → ℚ :=
  if hdr.sform_code > 0 then
    ![hdr.srow_x 3, hdr.srow_y 3, hdr.srow_z 3]
  else if hdr.qform_code > 0 then
    ![hdr.quatern_x, hdr.quatern_y, hdr.quatern_z]
  else
    ![0, 0, 0]

/-- The dominant-row scan of `reorient_to_ras` (main.rs lines 91-103):
for column `c`, fold over rows 0,1,2 keeping `(best_row, best_val)`,
starting from `(0, 0.0)` and updating on strict `>`. -/
def dominantRow (A : Affine3) (c : Fin 3) : Fin 3 :=
  (List.foldl
    (fun best r => if |A r c| > best.2 then (r, |A r c|) else best)
    ((0 : Fin 3), (0 : ℚ)) [0, 1, 2]).1

/-- Rust `voxel_to_world[col] = best_row` (main.rs line 101). -/
def voxelToWorld (A : Affine3) : Fin 3 → Fin 3 :=
  fun c => dominantRow A c

/-- Rust `voxel_flip[col] = affine[best_row][col] < 0.0` (main.rs line 102). -/
def voxelFlip (A : Affine3) : Fin 3 → Bool :=
  fun c => decide (A (dominantRow A c) c < 0)

/-- The inversion loop `world_to_voxel[voxel_to_world[col]] = col` for
`col = 0, 1, 2` over an all-zero initial array (main.rs lines 106-109),
as a chain of pointwise updates. -/
def worldToVoxel (A : Affine3) : Fin 3 → Fin 3 :=
  Function.update
    (Function.update
      (Function.update (fun _ => (0 : Fin 3)) (voxelToWorld A 0) 0)
      (voxelToWorld A 1) 1)
    (voxelToWorld A 2) 2

/-- Rust `orig_spacing = [pixdim[1], pixdim[2], pixdim[3]]` (main.rs line 112). -/
def origSpacing (hdr : NiftiHeader) : Fin 3 → ℚ :=
  ![hdr.pixdim 1, hdr.pixdim 2, hdr.pixdim 3]

/-- Rust `ras_spacing[a] = orig_spacing[world_to_voxel[a]]` (main.rs 113-117). -/
def rasSpacingOf (hdr : NiftiHeader) (A : Affine3) : Fin 3 → ℚ :=
  fun a => origSpacing hdr (worldToVoxel A a)

/-- Rust `needs_flip[a] = voxel_flip[world_to_voxel[a]]` (main.rs 123-127). -/
def needsFlip (A : Affine3) : Fin 3 → Bool :=
  fun a => voxelFlip A (worldToVoxel A a)

/-- The inverse lookup `ndarray` performs inside `permuted_axes`: the
position of original axis `v` in the permutation `p`.  Faithful to the
library when `p` is a permutation, which `permuted_axes` requires. -/
def invLookup (p : Fin 3 → Fin 3) (v : Fin 3) : Fin 3 :=
  if p 0 = v then 0 else if p 1 = v then 1 else 2

/-- Rust `volume.permuted_axes(p)`: output axis `a` is input axis `p a`. -/
def permutedAxes (vol : Volume) (p : Fin 3 → Fin 3) : Volume where
  shape := fun a => vol.shape (p a)
  data := fun idx => vol.data (fun v => idx (invLookup p v))

/-- Rust `vol.slice(s![..;-1, ...])`-style reversal of one axis: index `i`
along axis `a` reads position `size - 1 - i` of the input. -/
def flipAxis (vol : Volume) (a : Fin 3) : Volume where
  shape := vol.shape
  data := fun idx => vol.data (Function.update idx a (vol.shape a - 1 - idx a))

/-- The permute-then-conditionally-flip pipeline of `reorient_to_ras`
(main.rs lines 120-142). -/
def reorientVolume (vol : Volume) (A : Affine3) : Volume :=
  let permuted := permutedAxes vol (worldToVoxel A)
  let v0 := if needsFlip A 0 then flipAxis permuted 0 else permuted
  let v1 := if needsFlip A 1 then flipAxis v0 1 else v0
  if needsFlip A 2 then flipAxis v1 2 else v1

/-- The `orig_ijk` loop (main.rs lines 146-154): for `a = 0, 1, 2`,
write `orig_ijk[world_to_voxel[a]] := shape - 1` if flipped else `0`,
over an all-zero initial array. -/
def origIjk (A : Affine3) (shape : Fin 3 → ℕ) : Fin 3 → ℚ :=
  let entry : Fin 3 → ℚ := fun a =>
    if needsFlip A a then ((shape (worldToVoxel A a) - 1 : ℕ) : ℚ) else 0
  Function.update
    (Function.update
      (Function.update (fun _ => (0 : ℚ)) (worldToVoxel A 0) (entry 0))
      (worldToVoxel A 1) (entry 1))
    (worldToVoxel A 2) (entry 2)

/-- Rust `ras_origin` (main.rs lines 155-168): the original affine and
translation applied to `orig_ijk`. -/
def rasOriginOf (A : Affine3) (t : Fin 3 → ℚ) (shape : Fin 3 → ℕ) :
    Fin 3 → ℚ :=
  fun k =>
    A k 0 * origIjk A shape 0 + A k 1 * origIjk A shape 1 +
      A k 2 * origIjk A shape 2 + t k

/-- Rust `reorient_to_ras` (main.rs lines 83-171): returns the reoriented
volume, the RAS-ordered spacing, and the RAS origin. -/
def reorient_to_ras (vol : Volume) (hdr : NiftiHeader) :
    Volume × (Fin 3 → ℚ) × (Fin 3 → ℚ) :=
  let A := get_affine_3x3 hdr
  let t := get_translation hdr
  (reorientVolume vol A, rasSpacingOf hdr A, rasOriginOf A t vol.shape)

/-- Rust `f32::round`: round half away from zero. -/
def roundRust (q : ℚ) : ℤ :=
  if 0 ≤ q then ⌊q + 1 / 2⌋ else -⌊1 / 2 - q⌋

/-- The viewer state `NiftiViewer` (main.rs lines 173-185). -/
structure NiftiViewer where
  volume : Option Volume
  voxdim : Fin 3 → ℚ
  ras_origin : Fin 3 → ℚ
  slice_x : ℕ
  slice_y : ℕ
  slice_z : ℕ
  scroll_accum : Fin 3 → ℚ
  error_msg : Option String

/-- Rust `NiftiViewer::new` (main.rs lines 188-199). -/
def NiftiViewer.new : NiftiViewer where
  volume := none
  voxdim := fun _ => 1
  ras_origin := fun _ => 0
  slice_x := 0
  slice_y := 0
  slice_z := 0
  scroll_accum := fun _ => 0
  error_msg := none

/-- Rust `NiftiViewer::voxel_to_mm` (main.rs lines 284-291): RAS position of
voxel `idx`, negated on axes 0 and 1 for the LPS display convention. -/
def NiftiViewer.voxel_to_mm (v : NiftiViewer) (axis : Fin 3) (idx : ℕ) : ℚ :=
  let ras := v.ras_origin axis + (idx : ℚ) * v.voxdim axis
  if (axis : ℕ) < 2 then -ras else ras

/-- Rust `NiftiViewer::mm_to_voxel` (main.rs lines 294-299).  `none` models a
panic: the `unwrap` of `self.volume` when nothing is loaded, and the
`clamp` whose upper bound `(n - 1) as isize` drops below the lower bound
`0` when `n = 0`. -/
def NiftiViewer.mm_to_voxel (v : NiftiViewer) (axis : Fin 3) (mm : ℚ) :
    Option ℕ :=
  match v.volume with
  | none => none
  | some vol =>
    let ras_mm := if (axis : ℕ) < 2 then -mm else mm
    let n := vol.shape axis
    if n = 0 then none
    else
      let idx : ℤ := roundRust ((ras_mm - v.ras_origin axis) / v.voxdim axis)
      some ((min (max idx 0) ((n : ℤ) - 1)).toNat)

/-- Rust `NiftiViewer::get_slices` (main.rs lines 301-314): `none` when no
volume is loaded, else the three fixed-axis cross-sections. -/
def NiftiViewer.get_slices (v : NiftiViewer) :
    Option ((ℕ → ℕ → ℚ) × (ℕ → ℕ → ℚ) × (ℕ → ℕ → ℚ)) :=
  match v.volume with
  | none => none
  | some vol =>
    some (fun j k => vol.data ![v.slice_x, j, k],
          fun i k => vol.data ![i, v.slice_y, k],
          fun i j => vol.data ![i, j, v.slice_z])

/-- Result of a successful load: volume, RAS spacing, RAS origin. -/
abbrev LoadResult : Type := Volume × (Fin 3 → ℚ) × (Fin 3 → ℚ)

/-- The in-memory tail of `load_nifti` / `load_nifti_reader` (main.rs
lines 652-659 and 677-690) after the external decoder has produced the
header and the dense 3-D grid: reorientation is total and always returns
`Ok`; there is no error or detection path here. -/
def loadPipelineTail (vol : Volume) (hdr : NiftiHeader) :
    Except String LoadResult :=
  Except.ok (reorient_to_ras vol hdr)

/-- Rust `NiftiViewer::load_from_path` (main.rs lines 201-217), with the
decode-and-reorient result passed in as a value: on `Ok` the whole
volume state is replaced and slices recentred, on `Err` only
`error_msg` is written. -/
def NiftiViewer.load_from_path (v : NiftiViewer)
    (result : Except String LoadResult) : NiftiViewer :=
  match result with
  | .ok (volume, voxdim, ras_origin) =>
    { v with
      slice_x := volume.shape 0 / 2
      slice_y := volume.shape 1 / 2
      slice_z := volume.shape 2 / 2
      volume := some volume
      voxdim := voxdim
      ras_origin := ras_origin
      scroll_accum := fun _ => 0
      error_msg := none }
  | .error e => { v with error_msg := some ("Failed to load: " ++ e) }

/-- Rust-style `NiftiViewer::load_from_bytes` (main.rs lines 219-235): identical
state transition to `load_from_path`, driven by `load_nifti_bytes`. -/
def NiftiViewer.load_from_bytes (v : NiftiViewer)
    (result : Except String LoadResult) : NiftiViewer :=
  match result with
  | .ok (volume, voxdim, ras_origin) =>
    { v with
      slice_x := volume.shape 0 / 2
      slice_y := volume.shape 1 / 2
      slice_z := volume.shape 2 / 2
      volume := some volume
      voxdim := voxdim
      ras_origin := ras_origin
      scroll_accum := fun _ => 0
      error_msg := none }
  | .error e => { v with error_msg := some ("Failed to load: " ++ e) }

/-- A row `r` of the direction matrix qualifies for column `c` when its
absolute value strictly exceeds the running maximum of the scan, i.e. it
is positive and strictly larger than the absolute value of every
earlier row. -/
def dominatesEarlier (A : Affine3) (c r : Fin 3) : Prop :=
  0 < |A r c| ∧ ∀ r2 : Fin 3, r2 < r → |A r2 c| < |A r c|

instance (A : Affine3) (c r : Fin 3) : Decidable (dominatesEarlier A c r) := by
  unfold dominatesEarlier; infer_instance

/-- The identity direction matrix. -/
def idAffine : Affine3 := ![![1, 0, 0], ![0, 1, 0], ![0, 0, 1]]

/-- Header of the concrete scenario in the spec: sform with rows
`[-1,0,0,90]`, `[0,1,0,-126]`, `[0,0,1,-72]` and unit spacing. -/
def hdrC1 : NiftiHeader where
  sform_code := 1
  qform_code := 0
  pixdim := ![1, 1, 1, 1, 0, 0, 0, 0]
  srow_x := ![-1, 0, 0, 90]
  srow_y := ![0, 1, 0, -126]
  srow_z := ![0, 0, 1, -72]
  quatern_b := 0
  quatern_c := 0
  quatern_d := 0
  quatern_x := 0
  quatern_y := 0
  quatern_z := 0

/-- A volume of shape `(181, 217, 181)` for the concrete scenario. -/
def volC1 : Volume where
  shape := ![181, 217, 181]
  data := fun _ => 0

/-- Header with no orientation information and unit spacing. -/
def hdrIdent : NiftiHeader where
  sform_code := 0
  qform_code := 0
  pixdim := ![1, 1, 1, 1, 0, 0, 0, 0]
  srow_x := ![0, 0, 0, 0]
  srow_y := ![0, 0, 0, 0]
  srow_z := ![0, 0, 0, 0]
  quatern_b := 0
  quatern_c := 0
  quatern_d := 0
  quatern_x := 0
  quatern_y := 0
  quatern_z := 0

/-- A small sample volume. -/
def volSmall : Volume where
  shape := ![3, 4, 5]
  data := fun _ => 0

/-- A degenerate sform header: voxel axes 0 and 1 are both dominated by
world row 0 (columns `(1,0,0)` and `(1,0,0)`), so the dominant-row
assignment is not injective. -/
def hdrDegen : NiftiHeader where
  sform_code := 1
  qform_code := 0
  pixdim := ![1, 1, 1, 1, 0, 0, 0, 0]
  srow_x := ![1, 1, 0, 0]
  srow_y := ![0, 0, 0, 0]
  srow_z := ![0, 0, 1, 0]
  quatern_b := 0
  quatern_c := 0
  quatern_d := 0
  quatern_x := 0
  quatern_y := 0
  quatern_z := 0

/-- A direction matrix whose column 0 is `(2, 3, 0)`: rows 0 and 1 both
strictly exceed all earlier rows, and the scan keeps the later one. -/
def tieAffine : Affine3 := ![![2, 1, 0], ![3, 0, 0], ![0, 0, 1]]

/-- A loaded viewer state used to instantiate the mapper theorems:
shape `(3, 4, 5)`, spacing `[2, 1, 1]`, origin `[-5, 3, 7]`. -/
def viewerEx : NiftiViewer where
  volume := some volSmall
  voxdim := ![2, 1, 1]
  ras_origin := ![-5, 3, 7]
  slice_x := 1
  slice_y := 2
  slice_z := 2
  scroll_accum := fun _ => 0
  error_msg := none

theorem fin3_cases (x : Fin 3) : x = 0 ∨ x = 1 ∨ x = 2 := by
  revert x; decide

theorem roundRust_natCast (n : ℕ) : roundRust (n : ℚ) = n := by
  rw [roundRust, if_pos (by positivity)]
  have : ⌊(n : ℚ) + 1 / 2⌋ = (n : ℤ) := by
    rw [Int.floor_eq_iff]
    constructor
    · push_cast; linarith
    · push_cast; linarith
  rw [this]

/-- C1: with sform rows `[-1,0,0,90]`, `[0,1,0,-126]`, `[0,0,1,-72]`,
unit spacing, and shape `(181,217,181)`, reorientation derives
`voxel_to_world = [0,1,2]`, `flip = [true,false,false]`,
`orig_ijk = [180,0,0]`, `RasSpacing = [1,1,1]` and
`RasOrigin = [-90,-126,-72]`. -/
theorem C1_concrete_scenario :
    voxelToWorld (get_affine_3x3 hdrC1) = ![0, 1, 2] ∧
    voxelFlip (get_affine_3x3 hdrC1) = ![true, false, false] ∧
    origIjk (get_affine_3x3 hdrC1) volC1.shape = ![180, 0, 0] ∧
    (reorient_to_ras volC1 hdrC1).2.1 = ![1, 1, 1] ∧
    (reorient_to_ras volC1 hdrC1).2.2 = ![-90, -126, -72] := by
  refine ⟨by decide, by decide, by decide, by decide, ?_⟩
  have hA : get_affine_3x3 hdrC1 = ![![-1, 0, 0], ![0, 1, 0], ![0, 0, 1]] := by
    decide
  have ht : get_translation hdrC1 = ![90, -126, -72] := by decide
  have hijk : origIjk ![![-1, 0, 0], ![0, 1, 0], ![0, 0, 1]] volC1.shape =
      ![180, 0, 0] := by decide
  show rasOriginOf (get_affine_3x3 hdrC1) (get_translation hdrC1) volC1.shape = _
  funext k
  simp only [rasOriginOf, hA, ht, hijk]
  rcases fin3_cases k with rfl | rfl | rfl <;>
    norm_num [Matrix.cons_val_zero, Matrix.cons_val_one, Matrix.cons_val_two,
      Matrix.vecHead, Matrix.vecTail]

/-- C3: the degenerate sform header `hdrDegen` yields the non-injective
dominant-row assignment `[0,0,2]`, yet the load pipeline still returns
`Ok` — nothing detects or surfaces the violation. -/
theorem C3_degenerate_not_detected :
    voxelToWorld (get_affine_3x3 hdrDegen) = ![0, 0, 2] ∧
    ¬ Function.Injective (voxelToWorld (get_affine_3x3 hdrDegen)) ∧
    loadPipelineTail volSmall hdrDegen =
      Except.ok (reorient_to_ras volSmall hdrDegen) :=
  ⟨by decide, by decide, rfl⟩

/-- C4: a failed load leaves the volume, spacing, origin and slice
indices unchanged and only records a caller-visible error message, for
both `load_from_path` and `load_from_bytes`; a successful load replaces
the volume and clears the error. -/
theorem C4_load_atomicity (v : NiftiViewer) (e : String) (r : LoadResult) :
    (v.load_from_path (Except.error e)).volume = v.volume ∧
    (v.load_from_path (Except.error e)).voxdim = v.voxdim ∧
    (v.load_from_path (Except.error e)).ras_origin = v.ras_origin ∧
    (v.load_from_path (Except.error e)).slice_x = v.slice_x ∧
    (v.load_from_path (Except.error e)).slice_y = v.slice_y ∧
    (v.load_from_path (Except.error e)).slice_z = v.slice_z ∧
    (v.load_from_path (Except.error e)).error_msg =
      some ("Failed to load: " ++ e) ∧
    v.load_from_bytes (Except.error e) = v.load_from_path (Except.error e) ∧
    (v.load_from_path (Except.ok r)).volume = some r.1 ∧
    (v.load_from_path (Except.ok r)).error_msg = none ∧
    v.load_from_bytes (Except.ok r) = v.load_from_path (Except.ok r) := by
  obtain ⟨vol, sp, o⟩ := r
  exact ⟨rfl, rfl, rfl, rfl, rfl, rfl, rfl, rfl, rfl, rfl, rfl⟩

/-- C7: a quaternion with `b = c = d = 0` yields the exact identity
rotation before spacing scaling, and a sum of squares at or above `1`
clamps the radicand to `0` instead of failing. -/
theorem C7_quaternion_identity_clamp (b c d : ℚ) :
    (b = 0 → c = 0 → d = 0 → qformRot b c d = idAffine) ∧
    (1 ≤ b * b + c * c + d * d → qformRadicand b c d = 0) := by
  constructor
  · rintro rfl rfl rfl
    have hrad : qformRadicand 0 0 0 = 1 := by norm_num [qformRadicand]
    have ha : qformA 0 0 0 = 1 := by
      rw [qformA, hrad, show (1 : ℚ) = ((1 : ℕ) : ℚ) by norm_num,
        Rat.sqrt_natCast, Nat.sqrt_one, Nat.cast_one]
    funext i j
    rcases fin3_cases i with rfl | rfl | rfl <;>
      rcases fin3_cases j with rfl | rfl | rfl <;>
        norm_num [qformRot, ha, idAffine]
  · intro h
    rw [qformRadicand, max_eq_right (by linarith)]

theorem C7_witness :
    qformRot 0 0 0 = idAffine ∧ qformRadicand 2 0 0 = 0 :=
  ⟨(C7_quaternion_identity_clamp 0 0 0).1 rfl rfl rfl,
   (C7_quaternion_identity_clamp 2 0 0).2 (by norm_num)⟩

/-- C2: for a loaded volume with nonzero spacing, any axis, and any
in-range index `i`, `mm_to_voxel` inverts `voxel_to_mm` exactly. -/
theorem C2_roundtrip (v : NiftiViewer) (vol : Volume)
    (hvol : v.volume = some vol) (axis : Fin 3) (i : ℕ)
    (hi : i < vol.shape axis) (hs : v.voxdim axis ≠ 0) :
    v.mm_to_voxel axis (v.voxel_to_mm axis i) = some i := by
  have hn : ¬ vol.shape axis = 0 := by omega
  simp only [NiftiViewer.mm_to_voxel, hvol, if_neg hn]
  have hras : (if (axis : ℕ) < 2 then -(v.voxel_to_mm axis i)
        else v.voxel_to_mm axis i)
      = v.ras_origin axis + (i : ℚ) * v.voxdim axis := by
    simp only [NiftiViewer.voxel_to_mm]
    by_cases h2 : (axis : ℕ) < 2 <;> simp [h2]
  rw [hras]
  have harg : (v.ras_origin axis + (i : ℚ) * v.voxdim axis -
      v.ras_origin axis) / v.voxdim axis = (i : ℚ) := by
    field_simp
  rw [harg, roundRust_natCast]
  have hmm : (min (max (i : ℤ) 0) ((vol.shape axis : ℤ) - 1)).toNat = i := by
    omega
  rw [hmm]

theorem C2_roundtrip_witness :
    viewerEx.mm_to_voxel 0 (viewerEx.voxel_to_mm 0 1) = some 1 :=
  C2_roundtrip viewerEx volSmall rfl 0 1 (by decide) (by decide)

/-- C5: for a loaded volume with positive extent along `axis`,
`mm_to_voxel` always yields an index, that index is in range, and an
internal rounded index at or below `0` or at or above `size - 1` is
clamped to `0` or `size - 1` respectively. -/
theorem C5_mm_to_voxel_clamped (v : NiftiViewer) (vol : Volume)
    (hvol : v.volume = some vol) (axis : Fin 3) (mm : ℚ)
    (hn : 1 ≤ vol.shape axis) :
    (v.mm_to_voxel axis mm).isSome = true ∧
    (∀ j, v.mm_to_voxel axis mm = some j → j < vol.shape axis) ∧
    (roundRust (((if (axis : ℕ) < 2 then -mm else mm) - v.ras_origin axis) /
        v.voxdim axis) ≤ 0 → v.mm_to_voxel axis mm = some 0) ∧
    ((vol.shape axis : ℤ) - 1 ≤
        roundRust (((if (axis : ℕ) < 2 then -mm else mm) - v.ras_origin axis) /
          v.voxdim axis) →
      v.mm_to_voxel axis mm = some (vol.shape axis - 1)) := by
  have hn0 : ¬ vol.shape axis = 0 := by omega
  simp only [NiftiViewer.mm_to_voxel, hvol, if_neg hn0]
  refine ⟨rfl, ?_, ?_, ?_⟩
  · intro j hj
    have := Option.some.inj hj
    omega
  · intro h
    exact congrArg some (by omega)
  · intro h
    exact congrArg some (by omega)

theorem C5_mm_to_voxel_clamped_witness :
    (viewerEx.mm_to_voxel 2 1000).isSome = true :=
  (C5_mm_to_voxel_clamped viewerEx volSmall rfl 2 1000 (by decide)).1

/-- C9: with no volume loaded `mm_to_voxel` hits the `unwrap` panic
(modelled `none`) while `get_slices` returns `none` gracefully; with a
volume of positive extent and nonzero spacing loaded, `mm_to_voxel`
always produces an index. -/
theorem C9_mm_to_voxel_requires_volume (v : NiftiViewer) (axis : Fin 3)
    (mm : ℚ) :
    (v.volume = none → v.mm_to_voxel axis mm = none ∧ v.get_slices = none) ∧
    (∀ vol, v.volume = some vol → 1 ≤ vol.shape axis → v.voxdim axis ≠ 0 →
      (v.mm_to_voxel axis mm).isSome = true) := by
  constructor
  · intro h
    exact ⟨by simp [NiftiViewer.mm_to_voxel, h],
           by simp [NiftiViewer.get_slices, h]⟩
  · intro vol hvol h1 hs
    have hn0 : ¬ vol.shape axis = 0 := by omega
    simp [NiftiViewer.mm_to_voxel, hvol, hn0]

theorem C9_mm_to_voxel_requires_volume_witness :
    (NiftiViewer.new.mm_to_voxel 0 5 = none ∧
      NiftiViewer.new.get_slices = none) ∧
    (viewerEx.mm_to_voxel 1 3).isSome = true :=
  ⟨(C9_mm_to_voxel_requires_volume NiftiViewer.new 0 5).1 rfl,
   (C9_mm_to_voxel_requires_volume viewerEx 1 3).2 volSmall rfl (by decide)
     (by decide)⟩

theorem invLookup_id (v : Fin 3) : invLookup (fun a => a) v = v := by
  revert v; decide

/-- C8: whenever the dominant-row assignment is a bijection, the
constructed inverse satisfies `world_to_voxel[voxel_to_world[c]] = c`. -/
theorem C8_worldToVoxel_inverse (A : Affine3)
    (h : Function.Bijective (voxelToWorld A)) (c : Fin 3) :
    worldToVoxel A (voxelToWorld A c) = c := by
  have hinj := h.injective
  have h01 : voxelToWorld A 0 ≠ voxelToWorld A 1 := by
    intro hEq; exact absurd (hinj hEq) (by decide)
  have h02 : voxelToWorld A 0 ≠ voxelToWorld A 2 := by
    intro hEq; exact absurd (hinj hEq) (by decide)
  have h12 : voxelToWorld A 1 ≠ voxelToWorld A 2 := by
    intro hEq; exact absurd (hinj hEq) (by decide)
  rcases fin3_cases c with rfl | rfl | rfl
  · simp [worldToVoxel, Function.update_apply, h01, h02]
  · simp [worldToVoxel, Function.update_apply, h12]
  · simp [worldToVoxel, Function.update_apply]

theorem C8_worldToVoxel_inverse_witness :
    worldToVoxel idAffine (voxelToWorld idAffine 0) = 0 :=
  C8_worldToVoxel_inverse idAffine (by decide) 0

/-- C6: a header with no sform or qform and unit spacing reorients to
the unchanged grid, unit RAS spacing and zero RAS origin. -/
theorem C6_identity_case (vol : Volume) (hdr : NiftiHeader)
    (hs : hdr.sform_code ≤ 0) (hq : hdr.qform_code ≤ 0)
    (h1 : hdr.pixdim 1 = 1) (h2 : hdr.pixdim 2 = 1) (h3 : hdr.pixdim 3 = 1) :
    (reorient_to_ras vol hdr).1 = vol ∧
    (reorient_to_ras vol hdr).2.1 = ![1, 1, 1] ∧
    (reorient_to_ras vol hdr).2.2 = ![0, 0, 0] := by
  have hA : get_affine_3x3 hdr = idAffine := by
    rw [get_affine_3x3, if_neg (by omega), if_neg (by omega), h1, h2, h3]
    rfl
  have ht : get_translation hdr = ![0, 0, 0] := by
    rw [get_translation, if_neg (by omega), if_neg (by omega)]
  have hw : worldToVoxel idAffine = fun a => a := by decide
  have hflip : needsFlip idAffine = fun _ => false := by decide
  refine ⟨?_, ?_, ?_⟩
  · show reorientVolume vol (get_affine_3x3 hdr) = vol
    rw [hA, reorientVolume]
    simp only [hflip, Bool.false_eq_true, if_false]
    rw [hw]
    cases vol with
    | mk s d =>
      unfold permutedAxes
      congr 1
      funext idx
      exact congrArg d (funext fun v => by rw [invLookup_id v])
  · show rasSpacingOf hdr (get_affine_3x3 hdr) = ![1, 1, 1]
    rw [hA]
    funext a
    show origSpacing hdr (worldToVoxel idAffine a) = ![1, 1, 1] a
    rw [hw]
    rcases fin3_cases a with rfl | rfl | rfl <;>
      simp [origSpacing, h1, h2, h3]
  · show rasOriginOf (get_affine_3x3 hdr) (get_translation hdr) vol.shape =
      ![0, 0, 0]
    rw [hA, ht]
    have hijk : origIjk idAffine vol.shape = fun _ => 0 := by
      funext w
      simp only [origIjk, hflip, Bool.false_eq_true, if_false]
      simp only [Function.update_apply]
      split_ifs <;> rfl
    funext k
    show idAffine k 0 * origIjk idAffine vol.shape 0 +
        idAffine k 1 * origIjk idAffine vol.shape 1 +
        idAffine k 2 * origIjk idAffine vol.shape 2 + ![0, 0, 0] k =
      ![0, 0, 0] k
    simp only [hijk]
    rcases fin3_cases k with rfl | rfl | rfl <;> norm_num [idAffine]

theorem C6_identity_case_witness :
    (reorient_to_ras volSmall hdrIdent).1 = volSmall ∧
    (reorient_to_ras volSmall hdrIdent).2.1 = ![1, 1, 1] ∧
    (reorient_to_ras volSmall hdrIdent).2.2 = ![0, 0, 0] :=
  C6_identity_case volSmall hdrIdent (by decide) (by decide) (by decide)
    (by decide) (by decide)

/-- C10 counterexample: in column 0 of `tieAffine` (entries `2, 3, 0`),
row 0 already strictly exceeds every earlier row and the zero running
maximum, so the smallest such row index is 0 — but the scan selects
row 1. -/
theorem C10_counterexample :
    dominatesEarlier tieAffine 0 0 ∧ dominantRow tieAffine 0 = 1 := by
  decide

set_option linter.unusedTactic false in
/-- C10 (amended): the selected world axis is the largest row index
whose absolute value strictly exceeds the running maximum (initialized
to zero, then every earlier row); an all-zero column selects world axis
0 with flip false. -/
theorem C10_tie_breaking_amended (A : Affine3) (c : Fin 3) :
    (∀ r, dominatesEarlier A c r → dominatesEarlier A c (dominantRow A c) ∧
      r ≤ dominantRow A c) ∧
    ((∀ r, A r c = 0) → dominantRow A c = 0 ∧ voxelFlip A c = false) := by
  constructor
  · intro r hr
    obtain ⟨hra, hrb⟩ := hr
    have h0 : 0 ≤ |A 0 c| := abs_nonneg (A 0 c)
    have h1 : 0 ≤ |A 1 c| := abs_nonneg (A 1 c)
    have h2 : 0 ≤ |A 2 c| := abs_nonneg (A 2 c)
    simp only [dominantRow, List.foldl]
    split_ifs with hc1 hc2 hc3 hc4 hc5 hc6 hc7 <;> dsimp only <;>
      (try dsimp only at hc1) <;> (try dsimp only at hc2) <;>
      (try dsimp only at hc3) <;> (try dsimp only at hc4) <;>
      (try dsimp only at hc5) <;> (try dsimp only at hc6) <;>
      (try dsimp only at hc7) <;>
      constructor <;>
      first
      | (refine ⟨by linarith, fun r2 hlt => ?_⟩
         rcases fin3_cases r2 with rfl | rfl | rfl <;>
           first
           | linarith
           | exact absurd hlt (by decide))
      | (exfalso
         rcases fin3_cases r with rfl | rfl | rfl <;> linarith [hra])
      | (rcases fin3_cases r with rfl | rfl | rfl
         · decide
         · first
           | decide
           | (exfalso; linarith [hra, hrb 0 (by decide)])
         · first
           | decide
           | (exfalso; linarith [hra, hrb 0 (by decide), hrb 1 (by decide)]))
  · intro hz
    have hd : dominantRow A c = 0 := by
      simp only [dominantRow, List.foldl, hz 0, hz 1, hz 2]
      norm_num
    refine ⟨hd, ?_⟩
    simp [voxelFlip, hd, hz 0]

theorem C10_tie_breaking_amended_witness :
    (dominatesEarlier tieAffine 0 (dominantRow tieAffine 0) ∧
      (1 : Fin 3) ≤ dominantRow tieAffine 0) ∧
    dominantRow (fun _ _ => 0) 0 = 0 ∧ voxelFlip (fun _ _ => 0) 0 = false :=
  ⟨(C10_tie_breaking_amended tieAffine 0).1 1 (by decide),
   (C10_tie_breaking_amended (fun _ _ => 0) 0).2 (fun _ => rfl)⟩
